import Mathlib

/-!
Shallow embedding of the chore/todo scheduling core of kinetic-app-v2.

Timestamps are modelled as integers counting milliseconds since the Unix
epoch, exactly as a JavaScript `Date` stores them (the app runs all date
arithmetic through `Date` and date-fns).  Calendar decomposition follows the
ECMAScript specification of `Date` (proleptic Gregorian calendar, UTC).
-/

namespace Kinetic

/-- JavaScript epoch-millisecond timestamp (`Date.getTime()`). -/
abbrev Timestamp := Int

def msPerDay : Int := 86400000

/-- Gregorian leap year test (ECMAScript DaysInYear). -/
def isLeapYear (y : Int) : Bool :=
  (y % 4 == 0 && y % 100 != 0) || y % 400 == 0

/-- Number of days in month `m` (1-based) of year `y`. -/
def daysInMonth (y m : Int) : Int :=
  if m = 2 then (if isLeapYear y then 29 else 28)
  else if m = 4 ∨ m = 6 ∨ m = 9 ∨ m = 11 then 30
  else 31

/-- Days since 1970-01-01 of the civil date `y-m-d` (proleptic Gregorian,
`m` 1-based).  This is the ECMAScript MakeDay computation; `d` may lie
outside `[1, daysInMonth y m]`, in which case the excess days overflow into
adjacent months, exactly as `Date` normalises them. -/
def daysFromCivil (y m d : Int) : Int :=
  let y2 := if m ≤ 2 then y - 1 else y
  let era := Int.fdiv y2 400
  let yoe := y2 - era * 400
  let doy := Int.fdiv (153 * (m + (if m > 2 then -3 else 9)) + 2) 5 + d - 1
  let doe := yoe * 365 + Int.fdiv yoe 4 - Int.fdiv yoe 100 + doy
  era * 146097 + doe - 719468

/-- Civil date `(year, month, day)` of a day count since 1970-01-01
(inverse of `daysFromCivil` on valid dates). -/
def civilFromDays (z : Int) : Int × Int × Int :=
  let z2 := z + 719468
  let era := Int.fdiv z2 146097
  let doe := z2 - era * 146097
  let yoe := Int.fdiv (doe - Int.fdiv doe 1460 + Int.fdiv doe 36524 - Int.fdiv doe 146096) 365
  let y := yoe + era * 400
  let doy := doe - (365 * yoe + Int.fdiv yoe 4 - Int.fdiv yoe 100)
  let mp := Int.fdiv (5 * doy + 2) 153
  let d := doy - Int.fdiv (153 * mp + 2) 5 + 1
  let m := mp + (if mp < 10 then 3 else -9)
  (if m ≤ 2 then y + 1 else y, m, d)

/-- ECMAScript Day(t): the day a timestamp falls on (floor division). -/
def dayOf (t : Timestamp) : Int := Int.fdiv t msPerDay

/-- ECMAScript TimeWithinDay(t): milliseconds since start of the day. -/
def timeOfDay (t : Timestamp) : Int := Int.emod t msPerDay

/-- Build the timestamp of `y-m-d hh:mm:ss` UTC. -/
def mkTimestamp (y m d hh mi ss : Int) : Timestamp :=
  daysFromCivil y m d * msPerDay + ((hh * 60 + mi) * 60 + ss) * 1000

/-- date-fns `addDays` (UTC: a calendar day is exactly 86400000 ms). -/
def addDays (t : Timestamp) (n : Int) : Timestamp := t + n * msPerDay

/-- JavaScript `d.setMonth(d.getMonth() + 1)`: re-assemble the date with the
month advanced, keeping the day-of-month number; a day number past the end of
the target month overflows into the following month (MakeDay semantics). -/
def setMonthPlus1 (t : Timestamp) : Timestamp :=
  let c := civilFromDays (dayOf t)
  let y := c.1
  let m := c.2.1
  let d := c.2.2
  let ym := if m = 12 then (y + 1, (1 : Int)) else (y, m + 1)
  (daysFromCivil ym.1 ym.2 1 + (d - 1)) * msPerDay + timeOfDay t

inductive Frequency
  | daily
  | weekly
  | monthly
deriving DecidableEq

/-- Function `calculateNextDueDate` from ChoresContext.tsx: `startDate` is
`lastCompleted` when given, otherwise the current time `now`. -/
def calculateNextDueDate (frequency : Frequency) (lastCompleted : Option Timestamp)
    (now : Timestamp) : Timestamp :=
  let startDate := lastCompleted.getD now
  match frequency with
  | .daily => addDays startDate 1
  | .weekly => addDays startDate 7
  | .monthly => setMonthPlus1 startDate

/-- The `Chore` record of ChoresContext.tsx (denormalised display names
omitted; the timestamp-string columns are carried as timestamps). -/
structure Chore where
  id : String
  family_id : String
  title : String
  description : Option String
  frequency : Frequency
  assigned_to : Option String
  rotation : Bool
  rotation_members : Option (List String)
  current_assignee_index : Option Int
  created_at : Timestamp
  created_by : String
  next_due : Option Timestamp
  last_completed : Option Timestamp
deriving DecidableEq

/-- JavaScript array indexing `xs[i]`: `undefined` (here `none`) outside
`[0, length)`. -/
def listGetInt (xs : List String) (i : Int) : Option String :=
  if h : 0 ≤ i ∧ i.toNat < xs.length then some (xs.get ⟨i.toNat, h.2⟩) else none

/-- Function `getNextAssignee` from ChoresContext.tsx.  JavaScript `%` truncates
toward zero, i.e. `Int.tmod`. -/
def getNextAssignee (chore : Chore) : Option String :=
  match chore.rotation, chore.rotation_members with
  | true, some members =>
    if members.length = 0 then chore.assigned_to
    else
      let nextIndex : Int :=
        match chore.current_assignee_index with
        | some i => Int.tmod (i + 1) members.length
        | none => 0
      listGetInt members nextIndex
  | _, _ => chore.assigned_to

/-- The `nextAssigneeIndex` computation inlined in `completeChore`.  The
JavaScript guard is `chore.rotation && chore.rotation_members`, which is
truthy for an *empty* members array; `(i + 1) % 0` is then `NaN`, which the
JSON layer persists as `null` (`none`). -/
def nextAssigneeIndexJS (chore : Chore) : Option Int :=
  match chore.rotation, chore.rotation_members with
  | true, some members =>
    match chore.current_assignee_index with
    | some i => if members.length = 0 then none else some (Int.tmod (i + 1) members.length)
    | none => some 0
  | _, _ => chore.current_assignee_index

/-- Function `completeChore` from ChoresContext.tsx, as the transformation it applies
to the chore record: `updateChore` sends exactly the four-field `updates`
object to the store, which merges it into the row and returns the row. -/
def completeChore (chore : Chore) (now : Timestamp) : Chore :=
  let nextDue := calculateNextDueDate chore.frequency (some now) now
  let nextAssignee := getNextAssignee chore
  let nextAssigneeIndex := nextAssigneeIndexJS chore
  { chore with
    last_completed := some now
    next_due := some nextDue
    assigned_to := nextAssignee
    current_assignee_index := nextAssigneeIndex }

/-- The rotation-advance step (spec §4.3 `advance`), as embodied in
`getNextAssignee`: next index and the member found there. -/
def advance (members : List String) (currentIndex : Option Int) : Int × Option String :=
  let nextIndex : Int :=
    match currentIndex with
    | some i => Int.tmod (i + 1) members.length
    | none => 0
  (nextIndex, listGetInt members nextIndex)

/-- date-fns `isPast`: strictly before now. -/
def isPast (d now : Timestamp) : Bool := d < now

/-- date-fns `isToday`: same calendar day as now. -/
def isToday (d now : Timestamp) : Bool := dayOf d == dayOf now

/-- Start (Sunday) of the week containing day `z`.  1970-01-04 (day 3) was a
Sunday, so Sundays are the days `z ≡ 3 [ZMOD 7]`. -/
def startOfSundayWeek (z : Int) : Int := z - Int.emod (z + 4) 7

/-- date-fns `isThisWeek` with its default options: same week as now, weeks
starting on Sunday (`weekStartsOn: 0`). -/
def isThisWeek (d now : Timestamp) : Bool :=
  startOfSundayWeek (dayOf d) == startOfSundayWeek (dayOf now)

/-- The five due-state categories named by the classifier contract.  The
chore list in ChoresList.tsx builds only four groups (overdue, dueToday,
upcoming, recentlyCompleted); `noDueDate` is part of the contract's codomain
but, as proved below, is never produced. -/
inductive ChoreStatus
  | overdue
  | dueToday
  | upcoming
  | noDueDate
  | recentlyCompleted
deriving DecidableEq

/-- The per-chore classification performed by `groupChoresByStatus` in
ChoresList.tsx: the group a chore is pushed into. -/
def classifyChore (c : Chore) (now : Timestamp) : ChoreStatus :=
  if (c.last_completed.map (fun lc => isThisWeek lc now)).getD false then
    .recentlyCompleted
  else
    match c.next_due with
    | none => .upcoming
    | some due =>
      if isPast due now && !isToday due now then .overdue
      else if isToday due now then .dueToday
      else .upcoming

/-- The form state of ChoresForm.tsx (`rotationMembers` is initialised to an
array, never null). -/
structure ChoreFormState where
  title : String
  description : String
  frequency : Frequency
  rotation : Bool
  assignedTo : Option String
  rotationMembers : List String
deriving DecidableEq

/-- JavaScript `String.prototype.trim`: strip leading and trailing
whitespace. -/
def jsTrim (s : String) : String :=
  String.mk (((s.data.dropWhile Char.isWhitespace).reverse.dropWhile
    Char.isWhitespace).reverse)

/-- Function `validateForm` from ChoresForm.tsx: the `newErrors` record it builds,
as a list of (field, message) pairs. -/
def validateForm (s : ChoreFormState) : List (String × String) :=
  (if jsTrim s.title = "" then [("title", "Title is required")] else []) ++
  (if s.rotation ∧ s.rotationMembers.length < 2 then
    [("rotation", "Rotation requires at least 2 family members")] else [])

/-- The `choreData` object `handleSubmit` passes to `createChore` /
`updateChore`. -/
structure ChoreData where
  title : String
  description : Option String
  frequency : Frequency
  rotation : Bool
  assigned_to : Option String
  rotation_members : Option (List String)
  current_assignee_index : Option Int
deriving DecidableEq

/-- Function `handleSubmit` from ChoresForm.tsx: when `validateForm` reports errors
it returns before any write, surfacing the error record; otherwise it builds
`choreData` and issues the single write. -/
def handleSubmit (s : ChoreFormState) : Except (List (String × String)) ChoreData :=
  let errors := validateForm s
  if errors.length = 0 then
    .ok
      { title := s.title
        description := if s.description = "" then none else some s.description
        frequency := s.frequency
        rotation := s.rotation
        assigned_to := if s.rotation then none else s.assignedTo
        rotation_members := if s.rotation then some s.rotationMembers else none
        current_assignee_index := if s.rotation then some 0 else none }
  else .error errors

inductive TodoStatus
  | pending
  | in_progress
  | completed
deriving DecidableEq

inductive Priority
  | low
  | medium
  | high
deriving DecidableEq

/-- The `Todo` record of the todos context (denormalised display names
omitted). -/
structure Todo where
  id : String
  family_id : String
  title : String
  description : Option String
  due_date : Option Timestamp
  priority : Priority
  status : TodoStatus
  assigned_to : Option String
  created_at : Timestamp
  created_by : String
deriving DecidableEq

/-- Function `toggleTodoStatus` from the todos context, as the transformation applied
to the todo record: `updateTodo` sends only `{ status: newStatus }` to the
store, which merges it into the row. -/
def toggleTodoStatus (t : Todo) : Todo :=
  let newStatus := if t.status = .completed then TodoStatus.pending else .completed
  { t with status := newStatus }

/-- A concrete chore used by the concrete-input theorems below. -/
def chore0 : Chore :=
  { id := "c1", family_id := "f1", title := "Dishes", description := none,
    frequency := .weekly, assigned_to := none, rotation := false,
    rotation_members := none, current_assignee_index := none,
    created_at := 0, created_by := "u1", next_due := none, last_completed := none }

/-- A concrete todo used by the concrete-input theorems below. -/
def todo0 : Todo :=
  { id := "t1", family_id := "f1", title := "Buy milk", description := none,
    due_date := none, priority := .medium, status := .in_progress,
    assigned_to := none, created_at := 0, created_by := "u1" }

lemma tmod_eq_emod_of_nonneg (a b : Int) (ha : 0 ≤ a) (hb : 0 ≤ b) :
    a.tmod b = a % b := by
  show a.tmod b = a.emod b
  lift a to Nat using ha
  lift b to Nat using hb
  simp [Int.tmod, Int.emod]

lemma listGetInt_nonneg (xs : List String) (i : Int) (h : 0 ≤ i) :
    listGetInt xs i = xs.get? i.toNat := by
  unfold listGetInt
  by_cases hlt : i.toNat < xs.length
  · rw [dif_pos ⟨h, hlt⟩, List.get?_eq_get hlt]
  · rw [dif_neg (by tauto), eq_comm, List.get?_eq_none]
    omega

/-- Fields of `completeChore` under active rotation with a non-empty member
list and a well-formed (null or non-negative) index. -/
lemma completeChore_rotation_fields (c : Chore) (n : Timestamp) (ms : List String)
    (hrot : c.rotation = true) (hm : c.rotation_members = some ms) (hne : ms ≠ [])
    (hidx : ∀ i, c.current_assignee_index = some i → 0 ≤ i) :
    (completeChore c n).current_assignee_index =
      some ((c.current_assignee_index.getD (-1) + 1) % (ms.length : Int)) ∧
    (completeChore c n).assigned_to =
      listGetInt ms ((c.current_assignee_index.getD (-1) + 1) % (ms.length : Int)) ∧
    (completeChore c n).last_completed = some n ∧
    (completeChore c n).next_due = some (calculateNextDueDate c.frequency (some n) n) := by
  have hlen : ms.length ≠ 0 := by
    intro h0
    exact hne (List.length_eq_zero.mp h0)
  cases hci : c.current_assignee_index with
  | none =>
    refine ⟨?_, ?_, rfl, rfl⟩
    · show nextAssigneeIndexJS c = _
      simp [nextAssigneeIndexJS, hrot, hm, hci, Int.zero_emod]
    · show getNextAssignee c = _
      simp [getNextAssignee, hrot, hm, hci, hlen, Int.zero_emod]
  | some i =>
    have hi : 0 ≤ i := hidx i hci
    have htm : (i + 1).tmod (ms.length : Int) = (i + 1) % (ms.length : Int) :=
      tmod_eq_emod_of_nonneg _ _ (by omega) (by positivity)
    refine ⟨?_, ?_, rfl, rfl⟩
    · show nextAssigneeIndexJS c = _
      simp [nextAssigneeIndexJS, hrot, hm, hci, hlen, htm]
    · show getNextAssignee c = _
      simp [getNextAssignee, hrot, hm, hci, hlen, htm]

lemma advanceIdx_iterate (len : Int) (hlen : 0 < len) (k : Nat) (i : Int)
    (h0 : 0 ≤ i) (h1 : i < len) :
    (fun j => (j + 1).tmod len)^[k] i = (i + k) % len := by
  induction k with
  | zero => simp [Int.emod_eq_of_lt h0 h1]
  | succ k ih =>
    rw [Function.iterate_succ_apply', ih]
    have hnn : 0 ≤ (i + k) % len := Int.emod_nonneg _ (by omega)
    show ((i + k) % len + 1).tmod len = (i + ((k + 1 : Nat) : Int)) % len
    rw [tmod_eq_emod_of_nonneg _ _ (by omega) (by omega), Int.emod_add_emod]
    push_cast
    ring_nf

/-- C7: for a chore with rotation disabled, `completeChore` updates only
`last_completed` (to the completion time) and `next_due` (to the recomputed
next due timestamp); `assigned_to`, `current_assignee_index` and every other
field are unchanged. -/
theorem completeChore_nonrotating_frame (c : Chore) (n : Timestamp)
    (h : c.rotation = false) :
    completeChore c n =
      { c with last_completed := some n,
               next_due := some (calculateNextDueDate c.frequency (some n) n) } := by
  cases hm : c.rotation_members <;>
    simp [completeChore, getNextAssignee, nextAssigneeIndexJS, h, hm]

theorem completeChore_nonrotating_frame_witness :
    chore0.rotation = false ∧
    completeChore chore0 0 =
      { chore0 with last_completed := some 0,
                    next_due := some (calculateNextDueDate chore0.frequency (some 0) 0) } :=
  ⟨rfl, completeChore_nonrotating_frame chore0 0 rfl⟩

/-- C10: `toggleTodoStatus` sets the status to `pending` exactly when the
current status is `completed` and to `completed` otherwise (so `in_progress`
goes straight to `completed`), modifying no other field. -/
theorem toggleTodoStatus_spec (t : Todo) :
    toggleTodoStatus t =
      { t with status := if t.status = .completed then .pending else .completed } ∧
    ((toggleTodoStatus t).status = .pending ↔ t.status = .completed) ∧
    ((toggleTodoStatus t).status = .completed ↔ t.status ≠ .completed) := by
  refine ⟨rfl, ?_, ?_⟩ <;> cases h : t.status <;> simp [toggleTodoStatus, h]

/-- C8: behaviour of `completeChore` on a chore with rotation enabled but an
empty `rotation_members` array.  The guard `chore.rotation &&
chore.rotation_members` is truthy for the empty array, so the index
computation takes the rotation branch: a null index becomes `0`, a non-null
index becomes `(i + 1) % 0 = NaN` (persisted as null) — while
`getNextAssignee`, which tests `length === 0`, leaves the assignee alone.
This contradicts both the spec's non-rotation branch and the function's own
`getNextAssignee` treatment of empty member lists. -/
theorem completeChore_emptyRotation_behavior :
    (completeChore { chore0 with
        rotation := true
        rotation_members := some []
        assigned_to := some "alice" } 0).current_assignee_index = some 0 ∧
    ({ chore0 with
        rotation := true
        rotation_members := some []
        assigned_to := some "alice" } : Chore).current_assignee_index = none ∧
    (completeChore { chore0 with
        rotation := true
        rotation_members := some []
        assigned_to := some "alice" } 0).assigned_to = some "alice" ∧
    (completeChore { chore0 with
        rotation := true
        rotation_members := some []
        assigned_to := some "alice"
        current_assignee_index := some 1 } 0).current_assignee_index = none := by
  refine ⟨rfl, rfl, rfl, rfl⟩

/-- C4: the rotation advance step maps a null index to `(0, members[0])`, a
non-null index `i` to `((i + 1) mod length, members[(i + 1) mod length])`,
wraps circularly, and applying it `length members` times starting from any
valid index returns to that index. -/
theorem advance_spec (members : List String) (i : Int)
    (hne : members ≠ []) (h0 : 0 ≤ i) (h1 : i < members.length) :
    advance members none = (0, members.get? 0) ∧
    advance members (some i) =
      ((i + 1) % (members.length : Int),
        members.get? (((i + 1) % (members.length : Int)).toNat)) ∧
    (fun j => (advance members (some j)).1)^[members.length] i = i := by
  have hlen : (0 : Int) < members.length := by
    have : members.length ≠ 0 := fun h => hne (List.length_eq_zero.mp h)
    omega
  have htm : (i + 1).tmod (members.length : Int) = (i + 1) % (members.length : Int) :=
    tmod_eq_emod_of_nonneg _ _ (by omega) (by omega)
  refine ⟨?_, ?_, ?_⟩
  · show (0, listGetInt members 0) = _
    rw [listGetInt_nonneg members 0 le_rfl]
    rfl
  · show ((i + 1).tmod members.length, listGetInt members ((i + 1).tmod members.length)) = _
    rw [htm, listGetInt_nonneg members _ (Int.emod_nonneg _ (by omega))]
  · have hfun : (fun j => (advance members (some j)).1) =
        (fun j => (j + 1).tmod (members.length : Int)) := rfl
    rw [hfun, advanceIdx_iterate (members.length : Int) hlen members.length i h0 h1]
    have : (i + (members.length : Int)) = i + (members.length : Int) * 1 := by ring
    rw [this, Int.add_mul_emod_self_left, Int.emod_eq_of_lt h0 h1]

theorem advance_spec_witness :
    (["A", "B", "C"] : List String) ≠ [] ∧ (0 : Int) ≤ 2 ∧
    (2 : Int) < (["A", "B", "C"] : List String).length ∧
    advance ["A", "B", "C"] none = (0, some "A") ∧
    advance ["A", "B", "C"] (some 2) = (0, some "A") ∧
    (fun j => (advance ["A", "B", "C"] (some j)).1)^[3] 2 = 2 := by
  have h := advance_spec ["A", "B", "C"] 2 (by decide) (by decide) (by decide)
  refine ⟨by decide, by decide, by decide, ?_, ?_, ?_⟩
  · simpa using h.1
  · simpa using h.2.1
  · simpa using h.2.2

lemma daysFromCivil_linear (y m d : Int) :
    daysFromCivil y m d = daysFromCivil y m 1 + (d - 1) := by
  simp only [daysFromCivil]
  ring

/-- Day count of the month-advance policy, written from the (amended) spec
sentence: advance by one calendar month keeping the day-of-month; when that
day does not exist in the target month, the excess days overflow past the
last valid day into the following month. -/
def monthlyAdvanceSpec (y m d : Int) : Int :=
  let ym := if m = 12 then (y + 1, (1 : Int)) else (y, m + 1)
  if d ≤ daysInMonth ym.1 ym.2 then daysFromCivil ym.1 ym.2 d
  else daysFromCivil ym.1 ym.2 (daysInMonth ym.1 ym.2) + (d - daysInMonth ym.1 ym.2)

/-- C2 (amended): daily adds one day, weekly adds seven days; monthly
advances the civil date by one calendar month keeping the day-of-month and
lets a non-existent day overflow into the following month (no clamping), as
`monthlyAdvanceSpec` states; all three are total and deterministic. -/
theorem calculateNextDueDate_policy (t n : Timestamp) (y m d : Int)
    (hc : civilFromDays (dayOf t) = (y, m, d)) :
    calculateNextDueDate .daily (some t) n = t + msPerDay ∧
    calculateNextDueDate .weekly (some t) n = t + 7 * msPerDay ∧
    calculateNextDueDate .monthly (some t) n =
      monthlyAdvanceSpec y m d * msPerDay + timeOfDay t := by
  refine ⟨?_, ?_, ?_⟩
  · show addDays t 1 = _
    unfold addDays
    ring
  · show addDays t 7 = _
    unfold addDays
    ring
  · show setMonthPlus1 t = _
    unfold setMonthPlus1 monthlyAdvanceSpec
    rw [hc]
    dsimp only
    split
    · split
      · rw [daysFromCivil_linear _ _ d]
      · rw [daysFromCivil_linear _ _ (daysInMonth _ _)]
        ring
    · split
      · rw [daysFromCivil_linear _ _ d]
      · rw [daysFromCivil_linear _ _ (daysInMonth _ _)]
        ring

/-- C2 counterexample: the code does not clamp; one month after
2024-01-31 is 2024-03-02 (JavaScript `setMonth` day overflow), not
2024-02-29. -/
theorem monthly_not_clamped :
    calculateNextDueDate .monthly (some (mkTimestamp 2024 1 31 0 0 0)) 0 =
      mkTimestamp 2024 3 2 0 0 0 ∧
    mkTimestamp 2024 3 2 0 0 0 ≠ mkTimestamp 2024 2 29 0 0 0 := by
  exact ⟨by decide, by decide⟩

theorem calculateNextDueDate_policy_witness :
    civilFromDays (dayOf (mkTimestamp 2024 1 31 0 0 0)) = (2024, 1, 31) ∧
    (calculateNextDueDate .daily (some (mkTimestamp 2024 1 31 0 0 0)) 0 =
        mkTimestamp 2024 1 31 0 0 0 + msPerDay ∧
      calculateNextDueDate .weekly (some (mkTimestamp 2024 1 31 0 0 0)) 0 =
        mkTimestamp 2024 1 31 0 0 0 + 7 * msPerDay ∧
      calculateNextDueDate .monthly (some (mkTimestamp 2024 1 31 0 0 0)) 0 =
        monthlyAdvanceSpec 2024 1 31 * msPerDay + timeOfDay (mkTimestamp 2024 1 31 0 0 0)) :=
  ⟨by decide, calculateNextDueDate_policy (mkTimestamp 2024 1 31 0 0 0) 0 2024 1 31 (by decide)⟩

/-- The chore of the spec's completion scenario: weekly, rotating over
alice, bob, carol, current index 1, never completed. -/
def choreScenario : Chore :=
  { chore0 with
    frequency := .weekly
    rotation := true
    rotation_members := some ["alice", "bob", "carol"]
    current_assignee_index := some 1 }

/-- C1 counterexample: with a singleton rotation list the new rotation
position is the old one, so the chore is re-assigned to the very member who
just completed it (the previous assignee). -/
theorem completeChore_rotation_counterexample :
    ({ chore0 with
        rotation := true
        rotation_members := some ["alice"]
        current_assignee_index := some 0
        assigned_to := some "alice" } : Chore).assigned_to = some "alice" ∧
    (completeChore { chore0 with
        rotation := true
        rotation_members := some ["alice"]
        current_assignee_index := some 0
        assigned_to := some "alice" } (mkTimestamp 2024 6 10 9 0 0)).assigned_to
      = some "alice" := by
  exact ⟨rfl, rfl⟩

/-- C1 (amended): under active rotation with a non-empty member list and a
null-or-non-negative index, `completeChore` persists `last_completed = now`,
`next_due = nextDue(frequency, now)`, the advanced index
`(current_assignee_index ?? -1) + 1 mod length`, and assigns the member at
the new index; the new assignee differs from the member who just completed
(the previous assignee at the previous index) provided the rotation members
are pairwise distinct and at least two. -/
theorem completeChore_rotation_advances (c : Chore) (n : Timestamp) (ms : List String)
    (hrot : c.rotation = true) (hm : c.rotation_members = some ms) (hne : ms ≠ [])
    (hidx : ∀ i, c.current_assignee_index = some i → 0 ≤ i) :
    (completeChore c n).last_completed = some n ∧
    (completeChore c n).next_due = some (calculateNextDueDate c.frequency (some n) n) ∧
    (completeChore c n).current_assignee_index =
      some ((c.current_assignee_index.getD (-1) + 1) % (ms.length : Int)) ∧
    (completeChore c n).assigned_to =
      ms.get? (((c.current_assignee_index.getD (-1) + 1) % (ms.length : Int)).toNat) ∧
    (ms.Nodup → 2 ≤ ms.length →
      ∀ i, c.current_assignee_index = some i → i < (ms.length : Int) →
        c.assigned_to = ms.get? i.toNat →
        (completeChore c n).assigned_to ≠ c.assigned_to) := by
  obtain ⟨h1, h2, h3, h4⟩ := completeChore_rotation_fields c n ms hrot hm hne hidx
  have hlen0 : ms.length ≠ 0 := fun h => hne (List.length_eq_zero.mp h)
  have hlen : (0 : Int) < ms.length := by omega
  have hget : (completeChore c n).assigned_to =
      ms.get? (((c.current_assignee_index.getD (-1) + 1) % (ms.length : Int)).toNat) := by
    rw [h2, listGetInt_nonneg _ _ (Int.emod_nonneg _ (by omega))]
  refine ⟨h3, h4, h1, hget, ?_⟩
  intro hnd hlen2 i hci hilt hold heq
  rw [hget, hold, hci] at heq
  simp only [Option.getD_some] at heq
  have hi : 0 ≤ i := hidx i hci
  have hnn : 0 ≤ (i + 1) % (ms.length : Int) := Int.emod_nonneg _ (by omega)
  have hltm : (i + 1) % (ms.length : Int) < ms.length := Int.emod_lt_of_pos _ hlen
  have hlt1 : ((i + 1) % (ms.length : Int)).toNat < ms.length := by omega
  rw [List.get?_eq_getElem?, List.get?_eq_getElem?] at heq
  have hij := List.getElem?_inj hlt1 hnd heq
  have hcast : (i + 1) % (ms.length : Int) = i := by omega
  rcases eq_or_lt_of_le (show i + 1 ≤ (ms.length : Int) by omega) with he | hlt
  · rw [he, Int.emod_self] at hcast
    omega
  · rw [Int.emod_eq_of_lt (by omega) hlt] at hcast
    omega

theorem completeChore_rotation_advances_witness :
    (choreScenario.rotation = true ∧
      choreScenario.rotation_members = some ["alice", "bob", "carol"] ∧
      (["alice", "bob", "carol"] : List String) ≠ [] ∧
      (∀ i, choreScenario.current_assignee_index = some i → 0 ≤ i)) ∧
    ((completeChore choreScenario (mkTimestamp 2024 6 10 9 0 0)).last_completed
        = some (mkTimestamp 2024 6 10 9 0 0) ∧
      (completeChore choreScenario (mkTimestamp 2024 6 10 9 0 0)).next_due
        = some (calculateNextDueDate choreScenario.frequency
            (some (mkTimestamp 2024 6 10 9 0 0)) (mkTimestamp 2024 6 10 9 0 0)) ∧
      (completeChore choreScenario (mkTimestamp 2024 6 10 9 0 0)).current_assignee_index
        = some ((choreScenario.current_assignee_index.getD (-1) + 1) %
            ((["alice", "bob", "carol"] : List String).length : Int)) ∧
      (completeChore choreScenario (mkTimestamp 2024 6 10 9 0 0)).assigned_to
        = (["alice", "bob", "carol"] : List String).get?
            (((choreScenario.current_assignee_index.getD (-1) + 1) %
              ((["alice", "bob", "carol"] : List String).length : Int)).toNat) ∧
      ((["alice", "bob", "carol"] : List String).Nodup →
        2 ≤ (["alice", "bob", "carol"] : List String).length →
        ∀ i, choreScenario.current_assignee_index = some i →
          i < ((["alice", "bob", "carol"] : List String).length : Int) →
          choreScenario.assigned_to = (["alice", "bob", "carol"] : List String).get? i.toNat →
          (completeChore choreScenario (mkTimestamp 2024 6 10 9 0 0)).assigned_to
            ≠ choreScenario.assigned_to)) ∧
    (calculateNextDueDate choreScenario.frequency (some (mkTimestamp 2024 6 10 9 0 0))
        (mkTimestamp 2024 6 10 9 0 0) = mkTimestamp 2024 6 17 9 0 0 ∧
      ((choreScenario.current_assignee_index.getD (-1) + 1) %
          ((["alice", "bob", "carol"] : List String).length : Int)) = 2 ∧
      (["alice", "bob", "carol"] : List String).get? 2 = some "carol") :=
  ⟨⟨rfl, rfl, by decide, fun i h => by
      have h2 : (1 : Int) = i := Option.some.inj h
      omega⟩,
    completeChore_rotation_advances choreScenario (mkTimestamp 2024 6 10 9 0 0)
      ["alice", "bob", "carol"] rfl rfl (by decide)
      (fun i h => by
        have h2 : (1 : Int) = i := Option.some.inj h
        omega),
    by decide, by decide, by decide⟩

/-- C3 counterexample: a valid form submission with rotation enabled
produces `current_assignee_index = 0` but `assigned_to = null`, which is not
the member at index 0 of the rotation list — the two are set independently at
creation/edit time. -/
theorem rotation_invariant_counterexample :
    handleSubmit { title := "Dishes"
                   description := ""
                   frequency := .weekly
                   rotation := true
                   assignedTo := none
                   rotationMembers := ["alice", "bob"] } =
      .ok { title := "Dishes"
            description := none
            frequency := .weekly
            rotation := true
            assigned_to := none
            rotation_members := some ["alice", "bob"]
            current_assignee_index := some 0 } ∧
    listGetInt ["alice", "bob"] 0 = some "alice" ∧
    (none : Option String) ≠ some "alice" := by
  have hval : validateForm { title := "Dishes"
                             description := ""
                             frequency := .weekly
                             rotation := true
                             assignedTo := none
                             rotationMembers := ["alice", "bob"] } = [] := by decide
  refine ⟨?_, by decide, by decide⟩
  simp only [handleSubmit, hval]
  rfl

/-- C3 (amended): form submissions with rotation enabled set `assigned_to`
to null and `current_assignee_index` to 0 (so `assigned_to` is *not* derived
from the rotation list at creation/edit); with rotation disabled they null
out `rotation_members` and `current_assignee_index`.  Completion of a
rotating chore with a non-empty list re-establishes the derivation:
afterwards `assigned_to` is the member at the persisted index. -/
theorem rotation_invariant_amended (s : ChoreFormState) (d : ChoreData) (c : Chore)
    (n : Timestamp) (ms : List String)
    (hs : handleSubmit s = .ok d)
    (hrot : c.rotation = true) (hm : c.rotation_members = some ms) (hne : ms ≠ [])
    (hidx : ∀ i, c.current_assignee_index = some i → 0 ≤ i) :
    (d.rotation = true → d.assigned_to = none ∧ d.current_assignee_index = some 0 ∧
      d.rotation_members = some s.rotationMembers) ∧
    (d.rotation = false → d.rotation_members = none ∧ d.current_assignee_index = none) ∧
    ∃ j : Int, 0 ≤ j ∧ (completeChore c n).current_assignee_index = some j ∧
      (completeChore c n).assigned_to = listGetInt ms j := by
  have hd : d = { title := s.title
                  description := if s.description = "" then none else some s.description
                  frequency := s.frequency
                  rotation := s.rotation
                  assigned_to := if s.rotation then none else s.assignedTo
                  rotation_members := if s.rotation then some s.rotationMembers else none
                  current_assignee_index := if s.rotation then some 0 else none } := by
    simp only [handleSubmit] at hs
    split at hs
    · cases hs
      rfl
    · exact absurd hs (by simp)
  obtain ⟨h1, h2, _, _⟩ := completeChore_rotation_fields c n ms hrot hm hne hidx
  have hlen0 : ms.length ≠ 0 := fun h => hne (List.length_eq_zero.mp h)
  subst hd
  refine ⟨fun hr => ?_, fun hr => ?_,
    ⟨_, Int.emod_nonneg _ (by exact_mod_cast hlen0), h1, h2⟩⟩
  · simp only at hr
    simp [hr]
  · simp only at hr
    simp [hr]

theorem rotation_invariant_amended_witness :
    (handleSubmit { title := "Dishes"
                    description := ""
                    frequency := .weekly
                    rotation := true
                    assignedTo := none
                    rotationMembers := ["alice", "bob"] } =
        .ok { title := "Dishes"
              description := none
              frequency := .weekly
              rotation := true
              assigned_to := none
              rotation_members := some ["alice", "bob"]
              current_assignee_index := some 0 } ∧
      choreScenario.rotation = true ∧
      choreScenario.rotation_members = some ["alice", "bob", "carol"] ∧
      (["alice", "bob", "carol"] : List String) ≠ [] ∧
      (∀ i, choreScenario.current_assignee_index = some i → 0 ≤ i)) ∧
    ((({ title := "Dishes"
         description := none
         frequency := .weekly
         rotation := true
         assigned_to := none
         rotation_members := some ["alice", "bob"]
         current_assignee_index := some 0 } : ChoreData).rotation = true →
        ({ title := "Dishes"
           description := none
           frequency := .weekly
           rotation := true
           assigned_to := none
           rotation_members := some ["alice", "bob"]
           current_assignee_index := some 0 } : ChoreData).assigned_to = none ∧
        ({ title := "Dishes"
           description := none
           frequency := .weekly
           rotation := true
           assigned_to := none
           rotation_members := some ["alice", "bob"]
           current_assignee_index := some 0 } : ChoreData).current_assignee_index = some 0 ∧
        ({ title := "Dishes"
           description := none
           frequency := .weekly
           rotation := true
           assigned_to := none
           rotation_members := some ["alice", "bob"]
           current_assignee_index := some 0 } : ChoreData).rotation_members =
          some ({ title := "Dishes"
                  description := ""
                  frequency := .weekly
                  rotation := true
                  assignedTo := none
                  rotationMembers := ["alice", "bob"] } : ChoreFormState).rotationMembers) ∧
      (({ title := "Dishes"
          description := none
          frequency := .weekly
          rotation := true
          assigned_to := none
          rotation_members := some ["alice", "bob"]
          current_assignee_index := some 0 } : ChoreData).rotation = false →
        ({ title := "Dishes"
           description := none
           frequency := .weekly
           rotation := true
           assigned_to := none
           rotation_members := some ["alice", "bob"]
           current_assignee_index := some 0 } : ChoreData).rotation_members = none ∧
        ({ title := "Dishes"
           description := none
           frequency := .weekly
           rotation := true
           assigned_to := none
           rotation_members := some ["alice", "bob"]
           current_assignee_index := some 0 } : ChoreData).current_assignee_index = none) ∧
      ∃ j : Int, 0 ≤ j ∧
        (completeChore choreScenario 0).current_assignee_index = some j ∧
        (completeChore choreScenario 0).assigned_to = listGetInt ["alice", "bob", "carol"] j) :=
  ⟨⟨by
      have hval : validateForm { title := "Dishes"
                                 description := ""
                                 frequency := .weekly
                                 rotation := true
                                 assignedTo := none
                                 rotationMembers := ["alice", "bob"] } = [] := by decide
      simp only [handleSubmit, hval]
      rfl,
    rfl, rfl, by decide, fun i h => by
      have h2 : (1 : Int) = i := Option.some.inj h
      omega⟩,
    rotation_invariant_amended
      { title := "Dishes"
        description := ""
        frequency := .weekly
        rotation := true
        assignedTo := none
        rotationMembers := ["alice", "bob"] }
      { title := "Dishes"
        description := none
        frequency := .weekly
        rotation := true
        assigned_to := none
        rotation_members := some ["alice", "bob"]
        current_assignee_index := some 0 }
      choreScenario 0 ["alice", "bob", "carol"] (by
        have hval : validateForm { title := "Dishes"
                                   description := ""
                                   frequency := .weekly
                                   rotation := true
                                   assignedTo := none
                                   rotationMembers := ["alice", "bob"] } = [] := by decide
        simp only [handleSubmit, hval]
        rfl) rfl rfl (by decide)
      (fun i h => by
        have h2 : (1 : Int) = i := Option.some.inj h
        omega)⟩

/-- C5 counterexample: a chore with no due timestamp (and no recent
completion) is pushed into the Upcoming group; the chores list has no
NoDueDate group at all. -/
theorem classify_noDueDate_counterexample :
    chore0.next_due = none ∧ chore0.last_completed = none ∧
    classifyChore chore0 0 = .upcoming ∧ ChoreStatus.upcoming ≠ .noDueDate := by
  refine ⟨rfl, rfl, rfl, by decide⟩

/-- C5 (amended): for a chore not classified RecentlyCompleted the ladder
is: absent due timestamp → Upcoming (not NoDueDate — that category is never
produced); strictly-before-now on a different calendar day → Overdue; same
calendar day → DueToday; otherwise Upcoming. -/
theorem classifyChore_ladder (c : Chore) (n : Timestamp)
    (h : classifyChore c n ≠ .recentlyCompleted) :
    (c.next_due = none → classifyChore c n = .upcoming) ∧
    (∀ due, c.next_due = some due →
      ((due < n ∧ dayOf due ≠ dayOf n) → classifyChore c n = .overdue) ∧
      (dayOf due = dayOf n → classifyChore c n = .dueToday) ∧
      ((¬ due < n ∧ dayOf due ≠ dayOf n) → classifyChore c n = .upcoming)) ∧
    classifyChore c n ≠ .noDueDate := by
  cases hlcb : (c.last_completed.map fun lc => isThisWeek lc n).getD false with
  | true => exact absurd (by simp [classifyChore, hlcb]) h
  | false =>
    refine ⟨fun hnd => by simp [classifyChore, hlcb, hnd], fun due hdue => ?_, ?_⟩
    · have hcl : classifyChore c n =
          (if isPast due n && !isToday due n then ChoreStatus.overdue
           else if isToday due n then ChoreStatus.dueToday else ChoreStatus.upcoming) := by
        simp [classifyChore, hlcb, hdue]
      refine ⟨fun hb => ?_, fun hd => ?_, fun hb => ?_⟩
      · have hcond : (isPast due n && !isToday due n) = true := by
          simp [isPast, isToday]
          exact ⟨hb.1, hb.2⟩
        rw [hcl, if_pos hcond]
      · have h2 : isToday due n = true := by simp [isToday, hd]
        rw [hcl]
        simp [h2]
      · have h1 : isPast due n = false := by simp [isPast, hb.1]
        have h2 : isToday due n = false := by simp [isToday, hb.2]
        rw [hcl]
        simp [h1, h2]
    · cases hnd : c.next_due with
      | none => simp [classifyChore, hlcb, hnd]
      | some due =>
        cases h1 : isPast due n <;> cases h2 : isToday due n <;>
          simp [classifyChore, hlcb, hnd, h1, h2]

theorem classifyChore_ladder_witness :
    (classifyChore { chore0 with next_due := some (mkTimestamp 2024 6 20 9 0 0) }
        (mkTimestamp 2024 6 10 9 0 0) ≠ .recentlyCompleted) ∧
    (({ chore0 with next_due := some (mkTimestamp 2024 6 20 9 0 0) } : Chore).next_due = none →
      classifyChore { chore0 with next_due := some (mkTimestamp 2024 6 20 9 0 0) }
        (mkTimestamp 2024 6 10 9 0 0) = .upcoming) ∧
    (∀ due, ({ chore0 with next_due := some (mkTimestamp 2024 6 20 9 0 0) } : Chore).next_due
        = some due →
      ((due < mkTimestamp 2024 6 10 9 0 0 ∧
          dayOf due ≠ dayOf (mkTimestamp 2024 6 10 9 0 0)) →
        classifyChore { chore0 with next_due := some (mkTimestamp 2024 6 20 9 0 0) }
          (mkTimestamp 2024 6 10 9 0 0) = .overdue) ∧
      (dayOf due = dayOf (mkTimestamp 2024 6 10 9 0 0) →
        classifyChore { chore0 with next_due := some (mkTimestamp 2024 6 20 9 0 0) }
          (mkTimestamp 2024 6 10 9 0 0) = .dueToday) ∧
      ((¬ due < mkTimestamp 2024 6 10 9 0 0 ∧
          dayOf due ≠ dayOf (mkTimestamp 2024 6 10 9 0 0)) →
        classifyChore { chore0 with next_due := some (mkTimestamp 2024 6 20 9 0 0) }
          (mkTimestamp 2024 6 10 9 0 0) = .upcoming)) ∧
    classifyChore { chore0 with next_due := some (mkTimestamp 2024 6 20 9 0 0) }
      (mkTimestamp 2024 6 10 9 0 0) ≠ .noDueDate :=
  ⟨by decide,
    classifyChore_ladder { chore0 with next_due := some (mkTimestamp 2024 6 20 9 0 0) }
      (mkTimestamp 2024 6 10 9 0 0) (by decide)⟩

/-- Membership in the calendar week running Monday through Sunday, written
from the claim's words (the spec's Mon–Sun week), for comparison with the
code's Sunday-started `isThisWeek`.  1970-01-05 (day 4) was a Monday. -/
def startOfMondayWeek (z : Int) : Int := z - Int.emod (z - 4) 7

/-- Same Monday-through-Sunday week as `now` (spec-side definition). -/
def inMondayWeek (d now : Timestamp) : Bool :=
  startOfMondayWeek (dayOf d) == startOfMondayWeek (dayOf now)

/-- C6 counterexample: a chore completed on Monday 2024-06-10, viewed on
Sunday 2024-06-16, lies in the current Mon–Sun week, yet the code (date-fns
default weeks start on Sunday) does not classify it RecentlyCompleted — it
lands in Upcoming. -/
theorem recentlyCompleted_week_counterexample :
    inMondayWeek (mkTimestamp 2024 6 10 12 0 0) (mkTimestamp 2024 6 16 9 0 0) = true ∧
    classifyChore { chore0 with
        last_completed := some (mkTimestamp 2024 6 10 12 0 0)
        next_due := some (mkTimestamp 2024 6 20 9 0 0) }
      (mkTimestamp 2024 6 16 9 0 0) = .upcoming ∧
    ChoreStatus.upcoming ≠ .recentlyCompleted := by
  refine ⟨by decide, rfl, by decide⟩

/-- C6 (amended): when `last_completed` is set and falls in the same week as
`now` with weeks running Sunday through Saturday (the date-fns default used
by the code), the chore is classified RecentlyCompleted, regardless of its
due timestamp — the check precedes all due-date checks. -/
theorem classify_recentlyCompleted (c : Chore) (n lc : Timestamp)
    (hlc : c.last_completed = some lc) (hw : isThisWeek lc n = true) :
    classifyChore c n = .recentlyCompleted := by
  simp [classifyChore, hlc, hw]

theorem classify_recentlyCompleted_witness :
    ({ chore0 with
        last_completed := some (mkTimestamp 2024 6 10 12 0 0)
        next_due := some (mkTimestamp 2024 6 1 9 0 0) } : Chore).last_completed
      = some (mkTimestamp 2024 6 10 12 0 0) ∧
    isThisWeek (mkTimestamp 2024 6 10 12 0 0) (mkTimestamp 2024 6 12 9 0 0) = true ∧
    classifyChore { chore0 with
        last_completed := some (mkTimestamp 2024 6 10 12 0 0)
        next_due := some (mkTimestamp 2024 6 1 9 0 0) }
      (mkTimestamp 2024 6 12 9 0 0) = .recentlyCompleted :=
  ⟨rfl, by decide,
    classify_recentlyCompleted
      { chore0 with
        last_completed := some (mkTimestamp 2024 6 10 12 0 0)
        next_due := some (mkTimestamp 2024 6 1 9 0 0) }
      (mkTimestamp 2024 6 12 9 0 0) (mkTimestamp 2024 6 10 12 0 0) rfl (by decide)⟩

/-- C9: a submission with an empty-after-trim title, or with rotation
enabled and fewer than 2 selected members, is rejected by `validateForm`
before any write: `handleSubmit` returns the error record (no `choreData` is
built, no create or update is invoked), and the record carries the message
keyed to the offending field. -/
theorem validateForm_blocks (s : ChoreFormState)
    (h : jsTrim s.title = "" ∨ (s.rotation = true ∧ s.rotationMembers.length < 2)) :
    handleSubmit s = .error (validateForm s) ∧
    (jsTrim s.title = "" → ("title", "Title is required") ∈ validateForm s) ∧
    (s.rotation = true ∧ s.rotationMembers.length < 2 →
      ("rotation", "Rotation requires at least 2 family members") ∈ validateForm s) := by
  have hne : validateForm s ≠ [] := by
    unfold validateForm
    rcases h with h1 | h2
    · rw [if_pos h1]
      simp
    · rw [if_pos (show (s.rotation : Prop) ∧ s.rotationMembers.length < 2 from ⟨h2.1, h2.2⟩)]
      simp
  refine ⟨?_, fun h1 => ?_, fun h2 => ?_⟩
  · simp only [handleSubmit]
    rw [if_neg (by simp [List.length_eq_zero, hne])]
  · unfold validateForm
    rw [if_pos h1]
    simp
  · unfold validateForm
    rw [if_pos (show (s.rotation : Prop) ∧ s.rotationMembers.length < 2 from ⟨h2.1, h2.2⟩)]
    simp

theorem validateForm_blocks_witness :
    (jsTrim ("  " : String) = "" ∨
      (({ title := "  "
          description := ""
          frequency := .weekly
          rotation := true
          assignedTo := none
          rotationMembers := ["alice"] } : ChoreFormState).rotation = true ∧
        ({ title := "  "
           description := ""
           frequency := .weekly
           rotation := true
           assignedTo := none
           rotationMembers := ["alice"] } : ChoreFormState).rotationMembers.length < 2)) ∧
    (handleSubmit { title := "  "
                    description := ""
                    frequency := .weekly
                    rotation := true
                    assignedTo := none
                    rotationMembers := ["alice"] } =
        .error (validateForm { title := "  "
                               description := ""
                               frequency := .weekly
                               rotation := true
                               assignedTo := none
                               rotationMembers := ["alice"] }) ∧
      (jsTrim ("  " : String) = "" →
        ("title", "Title is required") ∈
          validateForm { title := "  "
                         description := ""
                         frequency := .weekly
                         rotation := true
                         assignedTo := none
                         rotationMembers := ["alice"] }) ∧
      (({ title := "  "
          description := ""
          frequency := .weekly
          rotation := true
          assignedTo := none
          rotationMembers := ["alice"] } : ChoreFormState).rotation = true ∧
        ({ title := "  "
           description := ""
           frequency := .weekly
           rotation := true
           assignedTo := none
           rotationMembers := ["alice"] } : ChoreFormState).rotationMembers.length < 2 →
        ("rotation", "Rotation requires at least 2 family members") ∈
          validateForm { title := "  "
                         description := ""
                         frequency := .weekly
                         rotation := true
                         assignedTo := none
                         rotationMembers := ["alice"] })) :=
  ⟨Or.inl (by decide),
    validateForm_blocks
      { title := "  "
        description := ""
        frequency := .weekly
        rotation := true
        assignedTo := none
        rotationMembers := ["alice"] }
      (Or.inl (by decide))⟩

end Kinetic


